import Mathlib

/- Formal model of the lxmchores Slack chore bot: the Durable Object state
   store (StateDO), the OpenAI tool-calling orchestration loop (ChoreBot),
   the scheduled reminder trigger and the Slack webhook handler.

   Modelling conventions:
   - Machine time is a natural number of milliseconds since the epoch.  The
     JavaScript expressions Date.now / toISOString / toDateString are
     modelled by the epoch value itself: ISO-8601 rendering of epoch times
     is injective and order-preserving, and toDateString values compare
     equal exactly when the two times fall on the same calendar day,
     modelled by division by msPerDay.
   - Each awaited crossing of an external boundary (completion-provider
     call, Durable Object stub fetch, Google token fetch, calendar fetch,
     outbound Slack delivery) advances the logical clock by one: real time
     strictly increases across an awaited round trip.
   - External collaborators (the completion provider, the Google token
     endpoint, the calendar API, the HMAC of signature verification) are
     oracles: arbitrary functions supplied to each run, indexed by the
     clock value at the moment of the call, which is distinct for every
     call of a run, so an oracle describes a fully general per-call
     behaviour.  A thrown JavaScript exception from a collaborator is an
     Except.error result.
   - JavaScript dynamic values appearing in payloads are modelled by JVal;
     a JS string is either free text or the ISO rendering of an epoch
     time.
   - The World record carries trace instrumentation: the number of
     completion-provider round trips, tool invocations and store writes
     performed so far.  The code keeps no such counters; they only make
     the observable trace of a run explicit in the model. -/

namespace Chores

/-- Milliseconds per calendar day. -/
def msPerDay : Nat := 86400000

/-- Calendar date of an epoch time: toDateString equality and the date
    part taken from toISOString in the backup key both agree with
    equality of this value. -/
def dateOf (t : Nat) : Nat := t / msPerDay

/-- A JavaScript string value: free text, or the ISO-8601 rendering of an
    epoch time t. -/
inductive JStr where
  | text (s : String)
  | isoTime (t : Nat)
deriving DecidableEq

/-- A JSON-decoded JavaScript value as it appears in payload fields. -/
inductive JVal where
  | vstr (s : JStr)
  | vnum (n : Int)
  | vbool (b : Bool)
  | vnull
deriving DecidableEq

/-- Runtime shape of a chore-state record (interface ChoreState in
    types.ts): a JavaScript object may lack any field, so each field is
    an optional JVal, with none for an absent field; validateState in
    StateDO is the runtime check for the trusted shape. -/
structure ChoreState where
  description : Option JVal
  lastUpdated : Option JVal
  lastSent : Option JVal
deriving DecidableEq

/-- The observable world of one run: the Durable Object storage (a map
    from storage key to stored record, as an association list whose first
    binding of a key is its current value), the logical clock, and the
    trace counters. -/
structure World where
  storage : List (String × ChoreState)
  clock : Nat
  providerCalls : Nat
  toolInvocs : Nat
  storeWrites : Nat
deriving DecidableEq

/-- Read a key from Durable Object storage (this.state.storage.get). -/
def World.getKey (w : World) (k : String) : Option ChoreState :=
  (w.storage.find? fun p => p.1 == k).map Prod.snd

/-- Write a key to Durable Object storage (this.state.storage.put),
    replacing any previous binding of the key. -/
def World.putKey (w : World) (k : String) (v : ChoreState) : World :=
  { w with
    storage := (k, v) :: w.storage.filter fun p => !(p.1 == k),
    storeWrites := w.storeWrites + 1 }

/-- Advance the logical clock across one awaited external round trip. -/
def tick (w : World) : World :=
  { w with clock := w.clock + 1 }

/-- Truthiness of an optional JavaScript value: undefined, null, the
    empty string, zero and false are falsy. -/
def truthy : Option JVal → Bool
  | none => false
  | some JVal.vnull => false
  | some (JVal.vstr (JStr.text s)) => !(s == "")
  | some (JVal.vstr (JStr.isoTime _)) => true
  | some (JVal.vnum n) => !(n == 0)
  | some (JVal.vbool b) => b

/-- Validity and value of new Date(x): an ISO time string yields that
    time, a number coerces (negative epochs never arise here and are
    mapped to invalid), null and booleans coerce numerically, free text
    and undefined yield an Invalid Date. -/
def jsDate : Option JVal → Option Nat
  | some (JVal.vstr (JStr.isoTime t)) => some t
  | some (JVal.vnum n) => if 0 ≤ n then some n.toNat else none
  | some JVal.vnull => some 0
  | some (JVal.vbool b) => some (if b then 1 else 0)
  | _ => none

/-- Rendering of a JavaScript string value inside a template literal. -/
def JStr.render : JStr → String
  | JStr.text s => s
  | JStr.isoTime t => "iso(" ++ toString t ++ ")"

/-- Template-literal rendering of a JavaScript value. -/
def renderVal : JVal → String
  | JVal.vstr s => s.render
  | JVal.vnum n => toString n
  | JVal.vbool b => toString b
  | JVal.vnull => "null"

/-- Template-literal rendering of a possibly absent value. -/
def renderOpt : Option JVal → String
  | none => "undefined"
  | some v => renderVal v

/-- Formatting of new Date(x).toLocaleString. -/
def toLocaleString (v : Option JVal) : String :=
  match jsDate v with
  | some t => "date(" ++ toString t ++ ")"
  | none => "Invalid Date"

/-- Value of date.toDateString for a possibly invalid date, compared with
    strict equality in the reminder trigger. -/
def toDateString (d : Option Nat) : String :=
  match d with
  | some t => "day(" ++ toString (dateOf t) ++ ")"
  | none => "Invalid Date"

/-- Description of the default record created on first read (getState in
    StateDO). -/
def defaultDescription : String :=
  "No chore rotation has been set up yet. The system is ready to track household chores and responsibilities."

/-- Storage key of the single persisted record. -/
def choreStateKey : String := "choreState"

/-- ISO timestamp value of the current time (new Date().toISOString()). -/
def nowIso (t : Nat) : JVal := JVal.vstr (JStr.isoTime t)

/-- Shape validation performed by StateDO.validateState: description and
    lastUpdated must be strings, lastSent must be absent, null or a
    string. -/
def validateState (st : ChoreState) : Bool :=
  (match st.description with
   | some (JVal.vstr _) => true
   | _ => false) &&
  (match st.lastUpdated with
   | some (JVal.vstr _) => true
   | _ => false) &&
  (match st.lastSent with
   | none => true
   | some JVal.vnull => true
   | some (JVal.vstr _) => true
   | _ => false)

/-- Response of the Durable Object fetch handler. -/
structure DOResp where
  status : Nat
  state : Option ChoreState
  msg : String
deriving DecidableEq

/-- Lazy read used by StateDO.getState: return the stored record, or
    create, persist and return the default one. -/
def getState (w : World) : ChoreState × World :=
  match w.getKey choreStateKey with
  | some st => (st, w)
  | none =>
    let d : ChoreState :=
      { description := some (JVal.vstr (JStr.text defaultDescription)),
        lastUpdated := some (nowIso w.clock),
        lastSent := none }
    (d, w.putKey choreStateKey d)

/-- StateDO.handleRead. -/
def handleRead (w : World) : DOResp × World :=
  let p := getState w
  ({ status := 200, state := some p.1, msg := "" }, p.2)

/-- StateDO.handleWrite: validate the payload shape, stamp lastUpdated
    with the current time, persist under choreStateKey and write a
    same-day backup copy under a key derived from the current date; a
    malformed payload is rejected with status 400 before any write. -/
def handleWrite (w : World) (payload : ChoreState) : DOResp × World :=
  if validateState payload then
    let stamped : ChoreState := { payload with lastUpdated := some (nowIso w.clock) }
    let w1 := w.putKey choreStateKey stamped
    let w2 := w1.putKey ("backup_" ++ toString (dateOf w.clock)) stamped
    ({ status := 200, state := some stamped, msg := "" }, w2)
  else
    ({ status := 400, state := none, msg := "Invalid state structure" }, w)

/-- StateDO.handleBackup: store a manual backup copy of the current
    record under a timestamp-derived key. -/
def handleBackup (w : World) : DOResp × World :=
  let p := getState w
  let w2 := p.2.putKey ("manual_backup_" ++ toString p.2.clock) p.1
  ({ status := 200, state := some p.1, msg := "" }, w2)

/-- Request sent through the Durable Object stub. -/
inductive DOReq where
  | read
  | write (payload : ChoreState)
  | backup
  | other
deriving DecidableEq

/-- Stub fetch against the Durable Object: one awaited round trip, then
    the path dispatch of StateDO.fetch. -/
def stubFetch (w : World) (r : DOReq) : DOResp × World :=
  let w1 := tick w
  match r with
  | DOReq.read => handleRead w1
  | DOReq.write p => handleWrite w1 p
  | DOReq.backup => handleBackup w1
  | DOReq.other => ({ status := 404, state := none, msg := "Not Found" }, w1)

/-- Parsed JSON object of tool-call arguments, restricted to the fields
    the three tools read; each may be absent or any JSON value, because
    the completion provider is not trusted to send well-formed
    arguments. -/
structure ParsedArgs where
  description : Option JVal
  summary : Option JVal
  startDateTime : Option JVal
  endDateTime : Option JVal
deriving DecidableEq

/-- One tool invocation requested by the completion provider.  The args
    field is the outcome of JSON.parse on the raw arguments string; error
    carries the thrown parse exception. -/
structure ToolCall where
  id : String
  name : String
  args : Except String ParsedArgs

/-- A conversation message (system, user, assistant and tool roles; the
    assistant message carries its requested tool calls, a tool message
    carries the id of its originating call). -/
inductive Msg where
  | system (content : String)
  | user (content : String)
  | assistant (content : Option String) (toolCalls : Option (List ToolCall))
  | tool (id : String) (content : String)

/-- Finish reason of a completion choice; other covers every reason the
    code does not inspect by name. -/
inductive FinishReason where
  | stop
  | tool_calls
  | length
  | other
deriving DecidableEq

/-- Relevant part of one completion-provider response (choices[0]). -/
structure Choice where
  finishReason : FinishReason
  content : Option String
  toolCalls : Option (List ToolCall)

/-- Calendar API fetch response. -/
structure CalResp where
  ok : Bool
  body : String
deriving DecidableEq

/-- External collaborators of one run, each indexed by the logical clock
    value at the moment of the call; an Except.error models a thrown
    JavaScript exception.  The hmac function models the SHA-256 HMAC used
    by signature verification, as hmac key message. -/
structure Oracle where
  provider : Nat → List Msg → Except String Choice
  token : Nat → Except String String
  calendar : Nat → Except String CalResp
  hmac : String → String → String

/-- Declared schema of one registered tool (an entry of getTools). -/
structure ToolSpec where
  name : String
  required : List String
deriving DecidableEq

/-- The static tool registry (ChoreBot.getTools): exactly three
    operations. -/
def getTools : List ToolSpec :=
  [ { name := "readState", required := [] },
    { name := "updateState", required := ["description"] },
    { name := "createCalendarEvent",
      required := ["summary", "startDateTime", "endDateTime"] } ]

/-- ChoreBot.readState: one stub read, then format the record as natural
    text.  The none branch is unreachable because the read path always
    returns a record. -/
def readStateTool (w : World) : String × World :=
  let p := stubFetch w DOReq.read
  match p.1.state with
  | some st =>
    ("Current chore state (last updated: " ++ toLocaleString st.lastUpdated ++ "):\n\n"
      ++ renderOpt st.description, p.2)
  | none => ("", p.2)

/-- ChoreBot.updateState: build a fresh record holding only the new
    description and a fresh lastUpdated (no lastSent field), POST it to
    the store write path and report success; the store response is not
    inspected. -/
def updateStateTool (w : World) (descArg : Option JVal) : String × World :=
  let newState : ChoreState :=
    { description := descArg, lastUpdated := some (nowIso w.clock), lastSent := none }
  let p := stubFetch w (DOReq.write newState)
  ("✅ Chore state updated successfully at " ++ toLocaleString (some (nowIso p.2.clock)), p.2)

/-- ChoreBot.createCalendarEventTool: exchange credentials for a token,
    call the calendar collaborator, and convert every failure (thrown
    token or fetch error, non-success response) into a textual failure
    result; a thrown Error stringifies with an Error: marker exactly as
    the JavaScript template literal does. -/
def createCalendarEventTool (o : Oracle) (w : World) (args : ParsedArgs) : String × World :=
  match o.token w.clock with
  | Except.error e => ("❌ Failed to create calendar event: " ++ e, tick w)
  | Except.ok _tok =>
    let w1 := tick w
    match o.calendar w1.clock with
    | Except.error e => ("❌ Failed to create calendar event: " ++ e, tick w1)
    | Except.ok resp =>
      let w2 := tick w1
      if resp.ok then
        ("📅 Calendar event created: \"" ++ renderOpt args.summary
          ++ "\" scheduled for " ++ toLocaleString args.startDateTime, w2)
      else
        ("❌ Failed to create calendar event: Error: Calendar API error: " ++ resp.body, w2)

/-- ChoreBot.runTool: parse the arguments, dispatch on the operation
    name; an unknown name throws (Except.error) an unknown-function
    Error. -/
def runTool (o : Oracle) (w : World) (tc : ToolCall) : Except String String × World :=
  match tc.args with
  | Except.error e => (Except.error e, w)
  | Except.ok args =>
    match tc.name with
    | "readState" =>
      let p := readStateTool w
      (Except.ok p.1, p.2)
    | "updateState" =>
      let p := updateStateTool w args.description
      (Except.ok p.1, p.2)
    | "createCalendarEvent" =>
      let p := createCalendarEventTool o w args
      (Except.ok p.1, p.2)
    | _ => (Except.error ("Error: Unknown function: " ++ tc.name), w)

/-- Execution of one tool call under the catch of the loop body: a
    failure becomes a textual tool result instead of an escaping
    exception. -/
def runToolCaught (o : Oracle) (w : World) (tc : ToolCall) : String × World :=
  let w0 : World := { w with toolInvocs := w.toolInvocs + 1 }
  match runTool o w0 tc with
  | (Except.ok s, w1) => (s, w1)
  | (Except.error e, w1) => ("Error executing " ++ tc.name ++ ": " ++ e, w1)

/-- Sequential execution of all requested tool calls, appending each
    result to the conversation tagged with its originating call id. -/
def runToolCalls (o : Oracle) : List ToolCall → List Msg → World → List Msg × World
  | [], msgs, w => (msgs, w)
  | tc :: rest, msgs, w =>
    let p := runToolCaught o w tc
    runToolCalls o rest (msgs ++ [Msg.tool tc.id p.1]) p.2

/-- Fallback returned when a stop response carries no text (the
    JavaScript or-default also treats the empty string as absent). -/
def doneFallback : String :=
  "I\x27ve completed your request. Is there anything else you\x27d like me to help with?"

/-- Terminal message of the length finish reason. -/
def lengthLimitMsg : String :=
  "I need to continue this conversation, but I\x27ve reached the length limit. Could you please restate your request?"

/-- Generic fallback returned after the iteration ceiling or an
    unexpected finish reason. -/
def multiStepFallback : String :=
  "I\x27ve processed your request with multiple steps. The chore state has been updated as needed. Is there anything specific you\x27d like me to clarify?"

/-- Reply produced by the outer catch when the loop throws. -/
def techDifficulties : String :=
  "I\x27m experiencing some technical difficulties. Please try your request again."

/-- The assistant text or-else the done fallback. -/
def contentOrDefault : Option String → String
  | some s => if s == "" then doneFallback else s
  | none => doneFallback

/-- Iteration ceiling of the loop (maxIterations). -/
def maxIterations : Nat := 5

/-- System prompt of the loop; only its existence and the embedded
    current date matter to the control flow. -/
def getSystemPrompt (now : Nat) : String :=
  "You are ChoreBot, an intelligent household chore management assistant. Current date: "
    ++ toString now

/-- Outcome of the try block of processWithAgenticLoop: a returned reply,
    or an exception escaping to the outer catch. -/
inductive LoopOut where
  | ok (reply : String)
  | thrown (e : String)

/-- Body of processWithAgenticLoop: the while loop over the remaining
    iteration budget.  Each entry performs one provider round trip; stop
    returns the text (or fallback), tool_calls with a present list runs
    the executor on every call and recurses, length and every other
    finish reason (including tool_calls with an absent list) are
    terminal, and an exhausted budget falls through to the generic
    fallback. -/
def loopGo (o : Oracle) : Nat → List Msg → World → LoopOut × World
  | 0, _msgs, w => (LoopOut.ok multiStepFallback, w)
  | fuel + 1, msgs, w =>
    let pr := o.provider w.clock msgs
    let w1 : World := { w with clock := w.clock + 1, providerCalls := w.providerCalls + 1 }
    match pr with
    | Except.error e => (LoopOut.thrown e, w1)
    | Except.ok choice =>
      match choice.finishReason with
      | FinishReason.stop => (LoopOut.ok (contentOrDefault choice.content), w1)
      | FinishReason.tool_calls =>
        match choice.toolCalls with
        | some tcs =>
          let q := runToolCalls o tcs (msgs ++ [Msg.assistant choice.content (some tcs)]) w1
          loopGo o fuel q.1 q.2
        | none => (LoopOut.ok multiStepFallback, w1)
      | FinishReason.length => (LoopOut.ok lengthLimitMsg, w1)
      | FinishReason.other => (LoopOut.ok multiStepFallback, w1)

/-- Initial two-message conversation of a run. -/
def initMsgs (m : String) (w : World) : List Msg :=
  [Msg.system (getSystemPrompt w.clock), Msg.user m]

/-- ChoreBot.processWithAgenticLoop: run the bounded loop on the initial
    conversation and convert a thrown exception into the
    technical-difficulties reply. -/
def processWithAgenticLoop (o : Oracle) (m : String) (w : World) : String × World :=
  match loopGo o maxIterations (initMsgs m w) w with
  | (LoopOut.ok r, w1) => (r, w1)
  | (LoopOut.thrown _e, w1) => (techDifficulties, w1)

/-- Instruction of the scheduled reminder generation. -/
def reminderInstruction : String :=
  "Generate a daily reminder message based on the current chore state. Be specific about who needs to do what today."

/-- Same-day test of the reminder trigger: lastSent is truthy and its
    date string compares equal to the one of now. -/
def reminderSkip (st : ChoreState) (now : Nat) : Bool :=
  truthy st.lastSent && (toDateString (jsDate st.lastSent) == toDateString (some now))

/-- ChoreBot.sendScheduledReminder: read the record, skip when the
    reminder was already sent today, otherwise generate a reminder
    through the loop and write the record back with lastSent stamped to
    the time observed before generation.  The none branch mirrors the
    outer catch swallowing a malformed read response. -/
def sendScheduledReminder (o : Oracle) (w : World) : World :=
  let p := stubFetch w DOReq.read
  match p.1.state with
  | none => p.2
  | some st =>
    let w1 := p.2
    let now := w1.clock
    if reminderSkip st now then w1
    else
      let q := processWithAgenticLoop o reminderInstruction w1
      let updated : ChoreState := { st with lastSent := some (nowIso now) }
      let r := stubFetch q.2 (DOReq.write updated)
      r.2

/-- ChoreBot.processCommand. -/
def processCommand (o : Oracle) (text : String) (w : World) : String × World :=
  processWithAgenticLoop o ("Slash command: /rusty " ++ text) w

/-- ChoreBot.processMessage. -/
def processMessage (o : Oracle) (text : String) (user : Option String) (w : World) : String × World :=
  processWithAgenticLoop o ("Message from user " ++ user.getD ("unknown") ++ ": " ++ text) w

/-- verifySlackSignature (utils.ts): both headers present, the timestamp
    within 300 seconds of now when it parses as an integer (a
    non-numeric timestamp makes the NaN staleness comparison false and
    falls through to the signature comparison), and the version-tagged
    HMAC of the base string equal to the given signature. -/
def verifySlackSignature (hmac : String → String → String) (tsHeader sigHeader : Option String)
    (secret body : String) (nowSec : Nat) : Bool :=
  match tsHeader, sigHeader with
  | some ts, some sig =>
    let stale : Bool :=
      match ts.toInt? with
      | some t => decide (300 < ((nowSec : Int) - t).natAbs)
      | none => false
    if stale then false
    else ("v0=" ++ hmac secret ("v0:" ++ ts ++ ":" ++ body)) == sig
  | _, _ => false

/-- Slack event payload fields used by handleSlackEvent. -/
structure SlackEventData where
  etype : String
  text : Option String
  user : Option String
  channel : Option String
  channelType : Option String
  botId : Option String
  subtype : Option String

/-- Parsed webhook body (JSON or form decoded), as dispatched on by the
    handler. -/
inductive SlackData where
  | urlVerification (challenge : String)
  | command (cmd : String) (text : Option String) (userName : String) (responseUrl : String)
  | eventCallback (ev : SlackEventData)
  | otherData

/-- Inbound HTTP request as seen by the worker: transport fields plus the
    parse outcome of the body (none when the body parses as neither form
    data nor JSON). -/
structure HttpReq where
  method : String
  tsHeader : Option String
  sigHeader : Option String
  body : String
  data : Option SlackData

/-- Outbound HTTP response. -/
structure HttpResp where
  status : Nat
  body : String
deriving DecidableEq

/-- handleChoresCommand (part_002): the deferred work started through
    ctx.waitUntil runs the loop and posts the reply to the response URL
    (one external round trip); the handler answers immediately. -/
def handleChoresCommand (o : Oracle) (text : Option String) (w : World) : HttpResp × World :=
  let t := (text.getD ("")).trim
  let p := processCommand o t w
  let w2 := tick p.2
  ({ status := 200, body := "🤖 Processing your request..." }, w2)

/-- handleSlackEvent: ignore bot messages, process mentions (text
    containing the mention marker) and direct messages through the loop
    and deliver the reply to the channel (one external round trip). -/
def handleSlackEvent (o : Oracle) (ev : SlackEventData) (w : World) : HttpResp × World :=
  if ev.botId.isSome || (ev.subtype == some ("bot_message")) then
    ({ status := 200, body := "OK" }, w)
  else
    if (ev.etype == "message")
        && (((ev.text.getD ("")).splitOn ("<@")).length > 1 || (ev.channelType == some ("im"))) then
      let p := processMessage o (ev.text.getD ("undefined")) ev.user w
      let w2 := tick p.2
      ({ status := 200, body := "OK" }, w2)
    else ({ status := 200, body := "OK" }, w)

/-- handleSlackWebhook (part_002): method guard, signature verification,
    body parse, then dispatch to URL verification, the slash command or
    the event callback.  Rejection with 401 happens strictly before any
    body parse, state access or provider call. -/
def handleSlackWebhook (o : Oracle) (req : HttpReq) (secret : String) (w : World) : HttpResp × World :=
  if !(req.method == "POST") then
    ({ status := 405, body := "Method not allowed" }, w)
  else if !(verifySlackSignature o.hmac req.tsHeader req.sigHeader secret req.body (w.clock / 1000)) then
    ({ status := 401, body := "Unauthorized" }, w)
  else
    match req.data with
    | none => ({ status := 400, body := "Bad Request" }, w)
    | some (SlackData.urlVerification ch) => ({ status := 200, body := ch }, w)
    | some (SlackData.command cmd text _userName _url) =>
      if cmd == "/rusty" then handleChoresCommand o text w
      else ({ status := 200, body := "OK" }, w)
    | some (SlackData.eventCallback ev) => handleSlackEvent o ev w
    | some SlackData.otherData => ({ status := 200, body := "OK" }, w)

/-- Iterated invocation of the readState tool, n times in a row. -/
def readStateN : Nat → World → World
  | 0, w => w
  | n + 1, w => readStateN n (readStateTool w).2

/-- A user-visible terminal reply of the loop: one of the fixed terminal
    messages, or a text returned verbatim from a stop response of the
    provider. -/
def TerminalReply (o : Oracle) (s : String) : Prop :=
  s = multiStepFallback ∨ s = lengthLimitMsg ∨ s = doneFallback ∨
    ∃ k ms ch, o.provider k ms = Except.ok ch ∧
      ch.finishReason = FinishReason.stop ∧ ch.content = some s

/-- A provider behaviour that answers every round trip with a tool_calls
    finish reason carrying a present list of calls. -/
def AlwaysToolCalls (o : Oracle) : Prop :=
  ∀ k ms, ∃ c tcs, o.provider k ms =
    Except.ok { finishReason := FinishReason.tool_calls, content := c, toolCalls := some tcs }

/-- Empty world used by the witnesses. -/
def wBase : World :=
  { storage := [], clock := 100, providerCalls := 0, toolInvocs := 0, storeWrites := 0 }

/-- Oracle whose provider always requests (zero) tool calls; used by the
    iteration-cap witness. -/
def oracleToolLoop : Oracle :=
  { provider := fun _ _ =>
      Except.ok { finishReason := FinishReason.tool_calls, content := none, toolCalls := some [] },
    token := fun _ => Except.error ("token unavailable"),
    calendar := fun _ => Except.error ("calendar unavailable"),
    hmac := fun _ _ => "" }

/-- Completion choice that stops with a fixed text. -/
def chStop : Choice :=
  { finishReason := FinishReason.stop, content := some ("done"), toolCalls := none }

/-- Oracle whose provider always stops with a fixed text and whose
    calendar collaborator answers with a non-success response. -/
def oracleCalFail : Oracle :=
  { provider := fun _ _ => Except.ok chStop,
    token := fun _ => Except.ok ("tok"),
    calendar := fun _ => Except.ok { ok := false, body := "quota exceeded" },
    hmac := fun _ _ => "" }

/-- Tool-call arguments object with every field absent. -/
def emptyArgs : ParsedArgs :=
  { description := none, summary := none, startDateTime := none, endDateTime := none }

/-- Unknown-operation invocation used by the executor witness. -/
def tcMystery : ToolCall :=
  { id := "call_1", name := "mysteryOp", args := Except.ok emptyArgs }

/-- Provider behaviour that requests the unknown operation on the first
    round trip (two-message conversation) and then stops. -/
def mysteryProvider (ms : List Msg) : Except String Choice :=
  if ms.length == 2 then
    Except.ok ({ finishReason := FinishReason.tool_calls, content := none, toolCalls := some [tcMystery] })
  else
    Except.ok ({ finishReason := FinishReason.stop, content := some ("ok"), toolCalls := none })

/-- Oracle whose provider first requests the unknown operation and then
    stops. -/
def oracleMystery : Oracle :=
  { oracleToolLoop with provider := fun _ ms => mysteryProvider ms }

/-- Malformed write payload with the description field absent. -/
def badPayload : ChoreState :=
  { description := none,
    lastUpdated := some (JVal.vstr (JStr.text ("2025-01-01"))),
    lastSent := none }

/-- A well-formed stored record whose lastSent falls on the same day as
    the clock of wStored. -/
def stToday : ChoreState :=
  { description := some (JVal.vstr (JStr.text ("Alice: trash, Bob: dishes"))),
    lastUpdated := some (nowIso 50),
    lastSent := some (nowIso 90) }

/-- World holding stToday under the chore-state key. -/
def wStored : World :=
  { storage := [(choreStateKey, stToday)], clock := 100,
    providerCalls := 0, toolInvocs := 0, storeWrites := 0 }

/-- Webhook request carrying no signature headers, so signature
    verification fails. -/
def reqUnsigned : HttpReq :=
  { method := "POST", tsHeader := none, sigHeader := none, body := "payload", data := none }

/-- Textual tool result produced for an unknown operation name: the
    executor catch wraps the stringified unknown-function Error thrown by
    the dispatch. -/
def unknownToolMsg (name : String) : String :=
  "Error executing " ++ name ++ ": " ++ ("Error: Unknown function: " ++ name)

/-- Looking up the key just written returns the written record. -/
theorem getKey_putKey_same (w : World) (k : String) (v : ChoreState) :
    (w.putKey k v).getKey k = some v := by
  simp [World.getKey, World.putKey, List.find?]

/-- Filtering out another key does not change the first binding of k. -/
theorem find?_filter_ne (l : List (String × ChoreState)) (k q : String) (h : k ≠ q) :
    (l.filter fun p => !(p.1 == q)).find? (fun p => p.1 == k) = l.find? (fun p => p.1 == k) := by
  induction l with
  | nil => rfl
  | cons a t ih =>
    by_cases hq : a.1 = q
    · have hk : (a.1 == k) = false := by
        rw [beq_eq_false_iff_ne, hq]
        exact fun hh => h hh.symm
      have hqk : (q == k) = false := by
        rw [beq_eq_false_iff_ne]
        exact fun hh => h hh.symm
      simp [List.filter_cons, List.find?_cons, hq, hk, hqk, ih]
    · have hq2 : (a.1 == q) = false := by rw [beq_eq_false_iff_ne]; exact hq
      by_cases hk : a.1 = k
      · have hk2 : (a.1 == k) = true := by rw [beq_iff_eq]; exact hk
        simp [List.filter_cons, List.find?_cons, hq2, hk2]
      · have hk2 : (a.1 == k) = false := by rw [beq_eq_false_iff_ne]; exact hk
        simp [List.filter_cons, List.find?_cons, hq2, hk2, ih]

/-- Writing a different key does not change the binding of k. -/
theorem getKey_putKey_other (w : World) (k q : String) (v : ChoreState) (h : k ≠ q) :
    (w.putKey q v).getKey k = w.getKey k := by
  have hq : (q == k) = false := by
    rw [beq_eq_false_iff_ne]
    exact fun hh => h hh.symm
  simp [World.getKey, World.putKey, List.find?_cons, hq, find?_filter_ne w.storage k q h]

/-- A backup key never collides with the chore-state key. -/
theorem backup_key_ne (s : String) : choreStateKey ≠ ("backup_" ++ s) := by
  intro h
  have h2 : ("backup_" ++ s).data = choreStateKey.data := congrArg String.data h.symm
  cases s with
  | mk l => simp [String.append, choreStateKey] at h2

/-- putKey leaves the clock, provider-call and tool counters alone. -/
theorem putKey_clock (w : World) (k : String) (v : ChoreState) :
    (w.putKey k v).clock = w.clock := rfl

theorem putKey_providerCalls (w : World) (k : String) (v : ChoreState) :
    (w.putKey k v).providerCalls = w.providerCalls := rfl

theorem putKey_toolInvocs (w : World) (k : String) (v : ChoreState) :
    (w.putKey k v).toolInvocs = w.toolInvocs := rfl

/-- getState leaves the provider-call counter alone. -/
theorem getState_providerCalls (w : World) : (getState w).2.providerCalls = w.providerCalls := by
  unfold getState
  cases h : w.getKey choreStateKey <;> simp [h, World.putKey]

/-- getState on a world holding a record is the identity and returns that
    record. -/
theorem getState_of_stored (w : World) (st : ChoreState) (h : w.getKey choreStateKey = some st) :
    getState w = (st, w) := by
  unfold getState
  rw [h]

theorem handleRead_providerCalls (w : World) : (handleRead w).2.providerCalls = w.providerCalls := by
  simp [handleRead, getState_providerCalls]

theorem handleWrite_providerCalls (w : World) (p : ChoreState) :
    (handleWrite w p).2.providerCalls = w.providerCalls := by
  unfold handleWrite
  split <;> rfl

theorem handleBackup_providerCalls (w : World) :
    (handleBackup w).2.providerCalls = w.providerCalls := by
  simp [handleBackup, World.putKey]
  have h := getState_providerCalls w
  simpa using h

theorem stubFetch_providerCalls (w : World) (r : DOReq) :
    (stubFetch w r).2.providerCalls = w.providerCalls := by
  unfold stubFetch
  cases r with
  | read => exact handleRead_providerCalls (tick w)
  | write p => exact handleWrite_providerCalls (tick w) p
  | backup => exact handleBackup_providerCalls (tick w)
  | other => rfl

theorem readStateTool_providerCalls (w : World) :
    (readStateTool w).2.providerCalls = w.providerCalls := by
  unfold readStateTool
  cases h : (stubFetch w DOReq.read).1.state <;>
    simp [h, stubFetch_providerCalls]

theorem updateStateTool_providerCalls (w : World) (d : Option JVal) :
    (updateStateTool w d).2.providerCalls = w.providerCalls := by
  simp [updateStateTool, stubFetch_providerCalls]

theorem createCalendarEventTool_providerCalls (o : Oracle) (w : World) (a : ParsedArgs) :
    (createCalendarEventTool o w a).2.providerCalls = w.providerCalls := by
  unfold createCalendarEventTool
  cases h1 : o.token w.clock with
  | error e => rfl
  | ok t =>
    simp only [tick]
    cases h2 : o.calendar (w.clock + 1) with
    | error e => simp [h2]
    | ok resp =>
      simp only [h2]
      split <;> rfl

theorem runTool_providerCalls (o : Oracle) (w : World) (tc : ToolCall) :
    (runTool o w tc).2.providerCalls = w.providerCalls := by
  unfold runTool
  cases h : tc.args with
  | error e => simp [h]
  | ok args =>
    simp only [h]
    split
    · simp [readStateTool_providerCalls]
    · simp [updateStateTool_providerCalls]
    · simp [createCalendarEventTool_providerCalls]
    · rfl

theorem runToolCaught_providerCalls (o : Oracle) (w : World) (tc : ToolCall) :
    (runToolCaught o w tc).2.providerCalls = w.providerCalls := by
  unfold runToolCaught
  have h := runTool_providerCalls o ({ w with toolInvocs := w.toolInvocs + 1 }) tc
  rcases hq : runTool o ({ w with toolInvocs := w.toolInvocs + 1 }) tc with ⟨r, w1⟩
  rw [hq] at h
  cases r with
  | ok s =>
    simp only [hq]
    simpa using h
  | error e =>
    simp only [hq]
    simpa using h

theorem runToolCalls_providerCalls (o : Oracle) (tcs : List ToolCall) (msgs : List Msg) (w : World) :
    (runToolCalls o tcs msgs w).2.providerCalls = w.providerCalls := by
  induction tcs generalizing msgs w with
  | nil => rfl
  | cons tc rest ih =>
    simp only [runToolCalls]
    rw [ih]
    exact runToolCaught_providerCalls o w tc

/-- Every entry of the loop body performs at most one provider round trip
    per unit of remaining budget. -/
theorem loopGo_providerCalls_le (o : Oracle) :
    ∀ (fuel : Nat) (msgs : List Msg) (w : World),
      (loopGo o fuel msgs w).2.providerCalls ≤ w.providerCalls + fuel := by
  intro fuel
  induction fuel with
  | zero =>
    intro msgs w
    simp [loopGo]
  | succ n ih =>
    intro msgs w
    simp only [loopGo]
    cases hp : o.provider w.clock msgs with
    | error e =>
      simp [hp]
    | ok choice =>
      simp only [hp]
      cases hf : choice.finishReason with
      | stop =>
        simp [hf]
      | tool_calls =>
        simp only [hf]
        cases ht : choice.toolCalls with
        | none =>
          simp [ht]
        | some tcs =>
          simp only [ht]
          have h1 := ih (runToolCalls o tcs
              (msgs ++ [Msg.assistant choice.content (some tcs)])
              ({ w with clock := w.clock + 1, providerCalls := w.providerCalls + 1 })).1
            (runToolCalls o tcs
              (msgs ++ [Msg.assistant choice.content (some tcs)])
              ({ w with clock := w.clock + 1, providerCalls := w.providerCalls + 1 })).2
          have h2 := runToolCalls_providerCalls o tcs
            (msgs ++ [Msg.assistant choice.content (some tcs)])
            ({ w with clock := w.clock + 1, providerCalls := w.providerCalls + 1 })
          simp only [h2] at h1
          have h3 : ({ w with clock := w.clock + 1, providerCalls := w.providerCalls + 1 } : World).providerCalls = w.providerCalls + 1 := rfl
          omega
      | length =>
        simp [hf]
      | other =>
        simp [hf]

/-- The provider-call count never decreases across the loop. -/
theorem loopGo_providerCalls_ge (o : Oracle) :
    ∀ (fuel : Nat) (msgs : List Msg) (w : World),
      w.providerCalls ≤ (loopGo o fuel msgs w).2.providerCalls := by
  intro fuel
  induction fuel with
  | zero =>
    intro msgs w
    simp [loopGo]
  | succ n ih =>
    intro msgs w
    simp only [loopGo]
    cases hp : o.provider w.clock msgs with
    | error e =>
      simp [hp]
    | ok choice =>
      simp only [hp]
      cases hf : choice.finishReason with
      | stop =>
        simp [hf]
      | tool_calls =>
        simp only [hf]
        cases ht : choice.toolCalls with
        | none => simp [ht]
        | some tcs =>
          simp only [ht]
          have h1 := ih (runToolCalls o tcs
              (msgs ++ [Msg.assistant choice.content (some tcs)])
              ({ w with clock := w.clock + 1, providerCalls := w.providerCalls + 1 })).1
            (runToolCalls o tcs
              (msgs ++ [Msg.assistant choice.content (some tcs)])
              ({ w with clock := w.clock + 1, providerCalls := w.providerCalls + 1 })).2
          have h2 := runToolCalls_providerCalls o tcs
            (msgs ++ [Msg.assistant choice.content (some tcs)])
            ({ w with clock := w.clock + 1, providerCalls := w.providerCalls + 1 })
          simp only [h2] at h1
          have h3 : ({ w with clock := w.clock + 1, providerCalls := w.providerCalls + 1 } : World).providerCalls = w.providerCalls + 1 := rfl
          omega
      | length =>
        simp [hf]
      | other =>
        simp [hf]

/-- With any budget left, entering the loop performs at least one
    provider round trip. -/
theorem loopGo_providerCalls_ge_one (o : Oracle) (fuel : Nat) (msgs : List Msg) (w : World)
    (h : 1 ≤ fuel) :
    w.providerCalls + 1 ≤ (loopGo o fuel msgs w).2.providerCalls := by
  cases fuel with
  | zero => omega
  | succ n =>
    simp only [loopGo]
    cases hp : o.provider w.clock msgs with
    | error e =>
      simp [hp]
    | ok choice =>
      simp only [hp]
      cases hf : choice.finishReason with
      | stop => simp [hf]
      | tool_calls =>
        simp only [hf]
        cases ht : choice.toolCalls with
        | none => simp [ht]
        | some tcs =>
          simp only [ht]
          have h1 := loopGo_providerCalls_ge o n (runToolCalls o tcs
              (msgs ++ [Msg.assistant choice.content (some tcs)])
              ({ w with clock := w.clock + 1, providerCalls := w.providerCalls + 1 })).1
            (runToolCalls o tcs
              (msgs ++ [Msg.assistant choice.content (some tcs)])
              ({ w with clock := w.clock + 1, providerCalls := w.providerCalls + 1 })).2
          have h2 := runToolCalls_providerCalls o tcs
            (msgs ++ [Msg.assistant choice.content (some tcs)])
            ({ w with clock := w.clock + 1, providerCalls := w.providerCalls + 1 })
          simp only [h2] at h1
          have h3 : ({ w with clock := w.clock + 1, providerCalls := w.providerCalls + 1 } : World).providerCalls = w.providerCalls + 1 := rfl
          omega
      | length => simp [hf]
      | other => simp [hf]

/-- Under a provider that always answers tool_calls with a present list,
    the loop consumes its whole budget, performing exactly one round trip
    per budget unit, and falls through to the generic fallback. -/
theorem loopGo_always_toolCalls (o : Oracle) (hA : AlwaysToolCalls o) :
    ∀ (fuel : Nat) (msgs : List Msg) (w : World),
      (loopGo o fuel msgs w).1 = LoopOut.ok multiStepFallback ∧
      (loopGo o fuel msgs w).2.providerCalls = w.providerCalls + fuel := by
  intro fuel
  induction fuel with
  | zero =>
    intro msgs w
    simp [loopGo]
  | succ n ih =>
    intro msgs w
    obtain ⟨c, tcs, hp⟩ := hA w.clock msgs
    simp only [loopGo, hp]
    have h2 := runToolCalls_providerCalls o tcs
      (msgs ++ [Msg.assistant c (some tcs)])
      ({ w with clock := w.clock + 1, providerCalls := w.providerCalls + 1 })
    refine ⟨(ih _ _).1, ?_⟩
    rw [(ih _ _).2, h2]
    have h3 : ({ w with clock := w.clock + 1, providerCalls := w.providerCalls + 1 } : World).providerCalls = w.providerCalls + 1 := rfl
    omega

/-- Every reply the loop returns without throwing is a terminal reply:
    one of the fixed terminal messages or a verbatim stop text. -/
theorem loopGo_ok_terminal (o : Oracle) :
    ∀ (fuel : Nat) (msgs : List Msg) (w : World) (s : String) (w1 : World),
      loopGo o fuel msgs w = (LoopOut.ok s, w1) → TerminalReply o s := by
  intro fuel
  induction fuel with
  | zero =>
    intro msgs w s w1 h
    simp [loopGo] at h
    exact Or.inl h.1.symm
  | succ n ih =>
    intro msgs w s w1 h
    simp only [loopGo] at h
    cases hp : o.provider w.clock msgs with
    | error e =>
      simp only [hp] at h
      simp at h
    | ok choice =>
      simp only [hp] at h
      cases hf : choice.finishReason with
      | stop =>
        simp only [hf] at h
        simp at h
        cases hc : choice.content with
        | none =>
          rw [hc] at h
          simp [contentOrDefault] at h
          exact Or.inr (Or.inr (Or.inl h.1.symm))
        | some cs =>
          rw [hc] at h
          by_cases hce : cs = ""
          · rw [hce] at h
            simp [contentOrDefault] at h
            exact Or.inr (Or.inr (Or.inl h.1.symm))
          · have hcb : (cs == "") = false := by
              rw [beq_eq_false_iff_ne]
              exact hce
            simp [contentOrDefault, hcb] at h
            refine Or.inr (Or.inr (Or.inr ⟨w.clock, msgs, choice, hp, hf, ?_⟩))
            rw [hc, h.1]
      | tool_calls =>
        simp only [hf] at h
        cases ht : choice.toolCalls with
        | none =>
          simp only [ht] at h
          simp at h
          exact Or.inl h.1.symm
        | some tcs =>
          simp only [ht] at h
          exact ih _ _ _ _ h
      | length =>
        simp only [hf] at h
        simp at h
        exact Or.inr (Or.inl h.1.symm)
      | other =>
        simp only [hf] at h
        simp at h
        exact Or.inl h.1.symm

/-- Ticking does not change storage lookups. -/
theorem tick_getKey (w : World) (k : String) : (tick w).getKey k = w.getKey k := rfl

/-- Dispatch of an unknown operation name throws the unknown-function
    Error without touching the world. -/
theorem runTool_unknown (o : Oracle) (w : World) (tc : ToolCall) (a : ParsedArgs)
    (hargs : tc.args = Except.ok a)
    (h1 : tc.name ≠ "readState")
    (h2 : tc.name ≠ "updateState")
    (h3 : tc.name ≠ "createCalendarEvent") :
    runTool o w tc = (Except.error ("Error: Unknown function: " ++ tc.name), w) := by
  unfold runTool
  simp only [hargs]

/-- The executor converts the unknown-function throw into a textual tool
    result; the only world change is the invocation count. -/
theorem runToolCaught_unknown (o : Oracle) (w : World) (tc : ToolCall) (a : ParsedArgs)
    (hargs : tc.args = Except.ok a)
    (h1 : tc.name ≠ "readState")
    (h2 : tc.name ≠ "updateState")
    (h3 : tc.name ≠ "createCalendarEvent") :
    runToolCaught o w tc =
      (unknownToolMsg tc.name, { w with toolInvocs := w.toolInvocs + 1 }) := by
  unfold runToolCaught
  simp only [runTool_unknown o ({ w with toolInvocs := w.toolInvocs + 1 }) tc a hargs h1 h2 h3]
  rfl

/-- Reading through the tool on a world that already holds a record only
    advances the clock. -/
theorem readStateTool_of_stored (w : World) (st : ChoreState)
    (hst : w.getKey choreStateKey = some st) :
    readStateTool w =
      ("Current chore state (last updated: " ++ toLocaleString st.lastUpdated ++ "):\n\n"
        ++ renderOpt st.description, tick w) := by
  unfold readStateTool stubFetch handleRead
  simp only [getState_of_stored (tick w) st hst]

/-- The record stored after a well-formed updateState call: the new
    description, a fresh timestamp taken at the write, and no lastSent
    field. -/
theorem updateStateTool_stored (w : World) (d : JStr) :
    ((updateStateTool w (some (JVal.vstr d))).2).getKey choreStateKey =
      some ({ description := some (JVal.vstr d),
              lastUpdated := some (nowIso (w.clock + 1)), lastSent := none }) := by
  unfold updateStateTool stubFetch handleWrite
  simp [validateState, nowIso, tick]
  rw [getKey_putKey_other _ _ _ _ (backup_key_ne _), getKey_putKey_same]

/-- The loop performs at least one provider round trip. -/
theorem processLoop_providerCalls_ge_one (o : Oracle) (m : String) (w : World) :
    w.providerCalls + 1 ≤ (processWithAgenticLoop o m w).2.providerCalls := by
  unfold processWithAgenticLoop
  rcases hl : loopGo o maxIterations (initMsgs m w) w with ⟨r, w1⟩
  have hge := loopGo_providerCalls_ge_one o maxIterations (initMsgs m w) w (by decide)
  rw [hl] at hge
  cases r <;> simpa using hge

/-- The loop performs at most five provider round trips. -/
theorem processLoop_providerCalls_le (o : Oracle) (m : String) (w : World) :
    (processWithAgenticLoop o m w).2.providerCalls ≤ w.providerCalls + 5 := by
  unfold processWithAgenticLoop
  rcases hl : loopGo o maxIterations (initMsgs m w) w with ⟨r, w1⟩
  have hle := loopGo_providerCalls_le o maxIterations (initMsgs m w) w
  rw [hl] at hle
  cases r <;> simpa [maxIterations] using hle

/-- One-step unfolding of the reminder trigger over a stored record: skip
    when the same-day test holds at the post-read clock, otherwise
    generate through the loop and write back with lastSent stamped. -/
theorem sendScheduledReminder_eq (o : Oracle) (w : World) (st : ChoreState)
    (hst : w.getKey choreStateKey = some st) :
    sendScheduledReminder o w =
      (if reminderSkip st (w.clock + 1) then tick w
       else (stubFetch (processWithAgenticLoop o reminderInstruction (tick w)).2
         (DOReq.write ({ st with lastSent := some (nowIso (w.clock + 1)) }))).2) := by
  unfold sendScheduledReminder stubFetch handleRead
  simp only [getState_of_stored (tick w) st hst]
  rfl

/-- C1: every run of the orchestration loop performs at most 5 provider
    round trips; and when the provider returns a tool_calls finish reason
    on every response, the loop stops after exactly 5 round trips and
    returns the generic fallback message instead of looping further. -/
theorem claim_C1_iteration_cap (o : Oracle) (m : String) (w : World)
    (hA : AlwaysToolCalls o) :
    (∀ (o2 : Oracle) (m2 : String) (w2 : World),
      (processWithAgenticLoop o2 m2 w2).2.providerCalls ≤ w2.providerCalls + 5) ∧
    (processWithAgenticLoop o m w).1 = multiStepFallback ∧
    (processWithAgenticLoop o m w).2.providerCalls = w.providerCalls + 5 := by
  have h := loopGo_always_toolCalls o hA maxIterations (initMsgs m w) w
  unfold processWithAgenticLoop
  rcases hl : loopGo o maxIterations (initMsgs m w) w with ⟨r, w1⟩
  rw [hl] at h
  refine ⟨fun o2 m2 w2 => processLoop_providerCalls_le o2 m2 w2, ?_, ?_⟩
  · cases r with
    | ok srep =>
      have hs : srep = multiStepFallback := by simpa using h.1
      simp [hl, hs]
    | thrown e => simp at h
  · cases r with
    | ok srep =>
      have hpc : w1.providerCalls = w.providerCalls + 5 := by
        simpa [maxIterations] using h.2
      simp [hl, hpc]
    | thrown e => simp at h

/-- Witness for C1 at the oracle whose provider always requests tool
    calls, starting from the empty world. -/
theorem claim_C1_iteration_cap_witness :
    (∀ (o2 : Oracle) (m2 : String) (w2 : World),
      (processWithAgenticLoop o2 m2 w2).2.providerCalls ≤ w2.providerCalls + 5) ∧
    (processWithAgenticLoop oracleToolLoop ("take out the trash") wBase).1 = multiStepFallback ∧
    (processWithAgenticLoop oracleToolLoop ("take out the trash") wBase).2.providerCalls =
      wBase.providerCalls + 5 :=
  claim_C1_iteration_cap oracleToolLoop ("take out the trash") wBase
    (fun _k _ms => ⟨none, [], rfl⟩)

/-- C2: for every provider and tool behaviour the loop returns a
    user-visible text (the technical-difficulties catch reply, or a
    terminal reply), and a non-success calendar response surfaces as a
    textual failure tool result rather than a thrown error. -/
theorem claim_C2_no_crash_calendar_failure_textual (o : Oracle) (m : String) (w : World)
    (wc : World) (args : ParsedArgs) (tok : String) (resp : CalResp)
    (h1 : o.token wc.clock = Except.ok tok)
    (h2 : o.calendar (wc.clock + 1) = Except.ok resp)
    (h3 : resp.ok = false) :
    ((processWithAgenticLoop o m w).1 = techDifficulties ∨
      TerminalReply o (processWithAgenticLoop o m w).1) ∧
    (createCalendarEventTool o wc args).1 =
      "❌ Failed to create calendar event: Error: Calendar API error: " ++ resp.body := by
  constructor
  · rcases hl : loopGo o maxIterations (initMsgs m w) w with ⟨r, w1⟩
    cases r with
    | ok srep =>
      right
      have ht := loopGo_ok_terminal o maxIterations (initMsgs m w) w srep w1 hl
      unfold processWithAgenticLoop
      simp only [hl]
      exact ht
    | thrown e =>
      left
      unfold processWithAgenticLoop
      simp only [hl]
  · unfold createCalendarEventTool
    simp only [h1, tick, h2, h3]
    rfl

/-- Witness for C2 at the oracle whose calendar collaborator rejects the
    event. -/
theorem claim_C2_no_crash_calendar_failure_textual_witness :
    ((processWithAgenticLoop oracleCalFail ("schedule dishes") wBase).1 = techDifficulties ∨
      TerminalReply oracleCalFail (processWithAgenticLoop oracleCalFail ("schedule dishes") wBase).1) ∧
    (createCalendarEventTool oracleCalFail wBase emptyArgs).1 =
      "❌ Failed to create calendar event: Error: Calendar API error: " ++
        (CalResp.mk false ("quota exceeded")).body :=
  claim_C2_no_crash_calendar_failure_textual oracleCalFail ("schedule dishes") wBase wBase
    emptyArgs ("tok") (CalResp.mk false ("quota exceeded")) rfl rfl rfl

/-- C3: a tool invocation whose name is none of the three registered
    operations is converted by the executor into a textual error result
    (touching nothing but the invocation count), that text is appended to
    the conversation as the tool result of the call, and the loop goes on
    to its next iteration, performing a second provider round trip. -/
theorem claim_C3_unknown_tool_continues (o : Oracle) (w : World) (n : Nat) (msgs : List Msg)
    (tc : ToolCall) (a : ParsedArgs) (ch : Choice)
    (hargs : tc.args = Except.ok a)
    (hname : tc.name ∉ getTools.map ToolSpec.name)
    (hp : o.provider w.clock msgs = Except.ok ch)
    (hf : ch.finishReason = FinishReason.tool_calls)
    (ht : ch.toolCalls = some [tc])
    (hn : 1 ≤ n) :
    runToolCaught o w tc =
      (unknownToolMsg tc.name, { w with toolInvocs := w.toolInvocs + 1 }) ∧
    loopGo o (n + 1) msgs w =
      loopGo o n
        (msgs ++ [Msg.assistant ch.content (some [tc]), Msg.tool tc.id (unknownToolMsg tc.name)])
        ({ w with clock := w.clock + 1, providerCalls := w.providerCalls + 1, toolInvocs := w.toolInvocs + 1 }) ∧
    w.providerCalls + 2 ≤ (loopGo o (n + 1) msgs w).2.providerCalls := by
  have h1 : tc.name ≠ "readState" := by
    intro hh
    exact hname (by simp [getTools, hh])
  have h2 : tc.name ≠ "updateState" := by
    intro hh
    exact hname (by simp [getTools, hh])
  have h3 : tc.name ≠ "createCalendarEvent" := by
    intro hh
    exact hname (by simp [getTools, hh])
  have hexec := runToolCaught_unknown o
    ({ w with clock := w.clock + 1, providerCalls := w.providerCalls + 1 })
    tc a hargs h1 h2 h3
  have hstep : loopGo o (n + 1) msgs w =
      loopGo o n
        (msgs ++ [Msg.assistant ch.content (some [tc]), Msg.tool tc.id (unknownToolMsg tc.name)])
        ({ w with clock := w.clock + 1, providerCalls := w.providerCalls + 1, toolInvocs := w.toolInvocs + 1 }) := by
    simp only [loopGo, hp, hf, ht]
    simp only [runToolCalls, hexec]
    simp [List.append_assoc]
  refine ⟨runToolCaught_unknown o w tc a hargs h1 h2 h3, hstep, ?_⟩
  rw [hstep]
  have hge := loopGo_providerCalls_ge_one o n
    (msgs ++ [Msg.assistant ch.content (some [tc]), Msg.tool tc.id (unknownToolMsg tc.name)])
    ({ w with clock := w.clock + 1, providerCalls := w.providerCalls + 1, toolInvocs := w.toolInvocs + 1 }) hn
  have h4 : ({ w with clock := w.clock + 1, providerCalls := w.providerCalls + 1, toolInvocs := w.toolInvocs + 1 } : World).providerCalls = w.providerCalls + 1 := rfl
  omega

/-- Witness for C3 at the oracle that first requests the unregistered
    mysteryOp operation. -/
theorem claim_C3_unknown_tool_continues_witness :
    runToolCaught oracleMystery wBase tcMystery =
      (unknownToolMsg tcMystery.name, { wBase with toolInvocs := wBase.toolInvocs + 1 }) ∧
    loopGo oracleMystery (4 + 1) (initMsgs ("hello") wBase) wBase =
      loopGo oracleMystery 4
        (initMsgs ("hello") wBase ++
          [Msg.assistant none (some [tcMystery]), Msg.tool tcMystery.id (unknownToolMsg tcMystery.name)])
        ({ wBase with clock := wBase.clock + 1, providerCalls := wBase.providerCalls + 1, toolInvocs := wBase.toolInvocs + 1 }) ∧
    wBase.providerCalls + 2 ≤ (loopGo oracleMystery (4 + 1) (initMsgs ("hello") wBase) wBase).2.providerCalls :=
  claim_C3_unknown_tool_continues oracleMystery wBase 4 (initMsgs ("hello") wBase)
    tcMystery emptyArgs
    ({ finishReason := FinishReason.tool_calls, content := none, toolCalls := some [tcMystery] })
    rfl (by decide) rfl rfl rfl (by decide)

/-- C4: a write payload that fails shape validation is rejected with
    status 400 and the world is returned unchanged: the previously stored
    record is untouched and no backup is written. -/
theorem claim_C4_invalid_write_rejected (w : World) (p : ChoreState)
    (h : validateState p = false) :
    handleWrite w p = ({ status := 400, state := none, msg := "Invalid state structure" }, w) := by
  unfold handleWrite
  simp [h]

/-- Witness for C4 at the payload missing its description field. -/
theorem claim_C4_invalid_write_rejected_witness :
    validateState badPayload = false ∧
    handleWrite wBase badPayload =
      ({ status := 400, state := none, msg := "Invalid state structure" }, wBase) :=
  ⟨rfl, claim_C4_invalid_write_rejected wBase badPayload rfl⟩

/-- C5: when the first provider round trip stops, the loop executes zero
    tool invocations and zero store mutations, performs exactly one round
    trip, and returns the assistant text verbatim (or the fallback when
    the text is empty or absent). -/
theorem claim_C5_first_stop_pure (o : Oracle) (m : String) (w : World) (ch : Choice)
    (hp : o.provider w.clock (initMsgs m w) = Except.ok ch)
    (hf : ch.finishReason = FinishReason.stop) :
    (processWithAgenticLoop o m w).1 = contentOrDefault ch.content ∧
    (∀ srep, ch.content = some srep → srep ≠ "" → (processWithAgenticLoop o m w).1 = srep) ∧
    (processWithAgenticLoop o m w).2.storage = w.storage ∧
    (processWithAgenticLoop o m w).2.toolInvocs = w.toolInvocs ∧
    (processWithAgenticLoop o m w).2.storeWrites = w.storeWrites ∧
    (processWithAgenticLoop o m w).2.providerCalls = w.providerCalls + 1 := by
  have hrun : processWithAgenticLoop o m w =
      (contentOrDefault ch.content,
        { w with clock := w.clock + 1, providerCalls := w.providerCalls + 1 }) := by
    unfold processWithAgenticLoop
    have e1 : maxIterations = 4 + 1 := rfl
    rw [e1]
    simp only [loopGo, hp, hf]
  rw [hrun]
  refine ⟨rfl, ?_, rfl, rfl, rfl, rfl⟩
  intro srep hs hne
  have hb : (srep == "") = false := by
    rw [beq_eq_false_iff_ne]
    exact hne
  simp [hs, contentOrDefault, hb]

/-- Witness for C5 at the oracle that stops immediately with a fixed
    text. -/
theorem claim_C5_first_stop_pure_witness :
    (processWithAgenticLoop oracleCalFail ("what are my chores") wBase).1 =
      contentOrDefault chStop.content ∧
    (∀ srep, chStop.content = some srep → srep ≠ "" →
      (processWithAgenticLoop oracleCalFail ("what are my chores") wBase).1 = srep) ∧
    (processWithAgenticLoop oracleCalFail ("what are my chores") wBase).2.storage = wBase.storage ∧
    (processWithAgenticLoop oracleCalFail ("what are my chores") wBase).2.toolInvocs = wBase.toolInvocs ∧
    (processWithAgenticLoop oracleCalFail ("what are my chores") wBase).2.storeWrites = wBase.storeWrites ∧
    (processWithAgenticLoop oracleCalFail ("what are my chores") wBase).2.providerCalls =
      wBase.providerCalls + 1 :=
  claim_C5_first_stop_pure oracleCalFail ("what are my chores") wBase chStop rfl rfl

/-- C6: a successful updateState call stores a record whose lastUpdated
    denotes the write time, strictly greater than the time denoted by the
    lastUpdated stored before the call (times of stored records never lie
    in the future of the clock). -/
theorem claim_C6_lastUpdated_strictly_increases (w : World) (st : ChoreState) (u : Nat) (d : JStr)
    (hst : w.getKey choreStateKey = some st)
    (hu : jsDate st.lastUpdated = some u)
    (hpast : u ≤ w.clock) :
    ∃ st2, ((updateStateTool w (some (JVal.vstr d))).2).getKey choreStateKey = some st2 ∧
      jsDate st2.lastUpdated = some (w.clock + 1) ∧ u < w.clock + 1 := by
  refine ⟨_, updateStateTool_stored w d, rfl, ?_⟩
  omega

/-- Witness for C6 updating the stored sample record. -/
theorem claim_C6_lastUpdated_strictly_increases_witness :
    ∃ st2, ((updateStateTool wStored (some (JVal.vstr (JStr.text ("Bob: trash"))))).2).getKey
        choreStateKey = some st2 ∧
      jsDate st2.lastUpdated = some (wStored.clock + 1) ∧ 50 < wStored.clock + 1 :=
  claim_C6_lastUpdated_strictly_increases wStored stToday 50 (JStr.text ("Bob: trash"))
    rfl rfl (by decide)

/-- C7: any number of readState invocations between two writes leaves the
    storage, the write count and the stored record (hence its lastUpdated
    and lastSent) unchanged. -/
theorem claim_C7_read_idempotent (w : World) (st : ChoreState) (n : Nat)
    (hst : w.getKey choreStateKey = some st) :
    (readStateN n w).storage = w.storage ∧
    (readStateN n w).storeWrites = w.storeWrites ∧
    (readStateN n w).getKey choreStateKey = some st := by
  induction n generalizing w with
  | zero => exact ⟨rfl, rfl, hst⟩
  | succ k ih =>
    have hr := readStateTool_of_stored w st hst
    simp only [readStateN, hr]
    exact ih (tick w) hst

/-- Witness for C7: three reads over the stored sample record. -/
theorem claim_C7_read_idempotent_witness :
    (readStateN 3 wStored).storage = wStored.storage ∧
    (readStateN 3 wStored).storeWrites = wStored.storeWrites ∧
    (readStateN 3 wStored).getKey choreStateKey = some stToday :=
  claim_C7_read_idempotent wStored stToday 3 rfl

/-- C8: when the stored lastSent denotes a time on the same calendar day
    as the current time observed by the trigger, the Reminder Trigger is
    a no-op: it only performs the read round trip, making no provider
    call and no store write, and the storage is unchanged. -/
theorem claim_C8_reminder_same_day_noop (o : Oracle) (w : World) (st : ChoreState) (t : Nat)
    (hst : w.getKey choreStateKey = some st)
    (hsent : st.lastSent = some (JVal.vstr (JStr.isoTime t)))
    (hday : dateOf t = dateOf (w.clock + 1)) :
    sendScheduledReminder o w = tick w ∧
    (sendScheduledReminder o w).storage = w.storage ∧
    (sendScheduledReminder o w).providerCalls = w.providerCalls ∧
    (sendScheduledReminder o w).storeWrites = w.storeWrites := by
  have hskip : reminderSkip st (w.clock + 1) = true := by
    unfold reminderSkip
    rw [hsent]
    simp [truthy, jsDate, toDateString, hday]
  have h1 : sendScheduledReminder o w = tick w := by
    rw [sendScheduledReminder_eq o w st hst, hskip]
    simp
  refine ⟨h1, ?_, ?_, ?_⟩ <;> rw [h1] <;> rfl

/-- Witness for C8 at the stored sample record, whose lastSent and the
    post-read clock fall on epoch day zero. -/
theorem claim_C8_reminder_same_day_noop_witness :
    sendScheduledReminder oracleCalFail wStored = tick wStored ∧
    (sendScheduledReminder oracleCalFail wStored).storage = wStored.storage ∧
    (sendScheduledReminder oracleCalFail wStored).providerCalls = wStored.providerCalls ∧
    (sendScheduledReminder oracleCalFail wStored).storeWrites = wStored.storeWrites :=
  claim_C8_reminder_same_day_noop oracleCalFail wStored stToday 90 rfl rfl (by decide)

/-- C9: a POST webhook request whose signature verification fails is
    answered with 401 Unauthorized and the world is returned untouched:
    no state access and no provider call happens. -/
theorem claim_C9_bad_signature_rejected_first (o : Oracle) (req : HttpReq) (secret : String)
    (w : World)
    (hm : req.method = "POST")
    (hv : verifySlackSignature o.hmac req.tsHeader req.sigHeader secret req.body
      (w.clock / 1000) = false) :
    handleSlackWebhook o req secret w = ({ status := 401, body := "Unauthorized" }, w) := by
  unfold handleSlackWebhook
  simp [hm, hv]

/-- Witness for C9 at the request with no signature headers. -/
theorem claim_C9_bad_signature_rejected_first_witness :
    handleSlackWebhook oracleCalFail reqUnsigned ("signing-secret") wBase =
      ({ status := 401, body := "Unauthorized" }, wBase) :=
  claim_C9_bad_signature_rejected_first oracleCalFail reqUnsigned ("signing-secret") wBase rfl rfl

/-- C10: updateState stores a fresh record holding only the new
    description and a fresh lastUpdated, erasing any stored lastSent (the
    validation accepts the absent field); consequently the same-day
    no-op test of the Reminder Trigger fails on the new record for every
    time, and a subsequent trigger run performs a provider call. -/
theorem claim_C10_update_erases_lastSent (o : Oracle) (w : World) (d : JStr) :
    ((updateStateTool w (some (JVal.vstr d))).2).getKey choreStateKey =
      some ({ description := some (JVal.vstr d),
              lastUpdated := some (nowIso (w.clock + 1)), lastSent := none }) ∧
    (∀ n2 : Nat, reminderSkip
      ({ description := some (JVal.vstr d),
         lastUpdated := some (nowIso (w.clock + 1)), lastSent := none }) n2 = false) ∧
    ((updateStateTool w (some (JVal.vstr d))).2).providerCalls + 1 ≤
      (sendScheduledReminder o ((updateStateTool w (some (JVal.vstr d))).2)).providerCalls := by
  refine ⟨updateStateTool_stored w d, ?_, ?_⟩
  · intro n2
    simp [reminderSkip, truthy]
  · set w2 := (updateStateTool w (some (JVal.vstr d))).2 with hw2
    have he := sendScheduledReminder_eq o w2 _ (updateStateTool_stored w d)
    have hskip : reminderSkip
        ({ description := some (JVal.vstr d),
           lastUpdated := some (nowIso (w.clock + 1)), lastSent := none })
        (w2.clock + 1) = false := by
      simp [reminderSkip, truthy]
    rw [he, if_neg (by simp [hskip])]
    rw [stubFetch_providerCalls]
    have hge := processLoop_providerCalls_ge_one o reminderInstruction (tick w2)
    have h4 : (tick w2).providerCalls = w2.providerCalls := rfl
    omega

end Chores
